import Mathlib

/-!
Shallow embedding of the `pyorc` transect module (`pyorc/api/transect.py`):
the `Transect` accessor methods `vector_to_scalar`, `get_river_flow` and
`get_q`, together with theorems checking the module's specification.

Modelling conventions:
* a floating-point value is `Val := Option ℚ`; `Option.none` models a
  non-finite value (NaN); arithmetic on `Val` propagates `Option.none`
  exactly as IEEE arithmetic propagates NaN;
* the transcendental primitives (`np.arctan2`, `np.cos`, `** 0.5`, `np.pi`)
  are abstracted into a structure `Ops` of rational-valued functions, so
  that every definition stays executable and theorems quantify over the
  primitives;
* the xarray dataset held by the accessor (`self._obj`) is an explicit
  record; a method that mutates `self._obj` takes the record and returns
  the updated record (paired with an `Option String` for a raised error,
  or wrapped in `Except String` when the whole computation can fail);
* external helpers that are not part of this module
  (`helpers.velocity_fill`, `helpers.depth_integrate`, xarray's
  `Dataset.quantile`) are abstracted as function parameters.
-/

/-- A float value: `Option.none` models NaN / non-finite. -/
abbrev Val := Option ℚ

/-- Abstract transcendental primitives used by `transect.py`
(`np.arctan2`, `np.cos`, square root via `** 0.5`, `np.pi`). -/
structure Ops where
  atan2 : ℚ → ℚ → ℚ
  cos : ℚ → ℚ
  sqrt : ℚ → ℚ
  pi : ℚ

/-- NaN-propagating addition. -/
def vAdd : Val → Val → Val
  | some a, some b => some (a + b)
  | _, _ => Option.none

/-- NaN-propagating subtraction. -/
def vSub : Val → Val → Val
  | some a, some b => some (a - b)
  | _, _ => Option.none

/-- NaN-propagating multiplication. -/
def vMul : Val → Val → Val
  | some a, some b => some (a * b)
  | _, _ => Option.none

/-- NaN-propagating `np.arctan2`. -/
def vAtan2 (F : Ops) : Val → Val → Val
  | some a, some b => some (F.atan2 a b)
  | _, _ => Option.none

/-- NaN-propagating `np.cos`. -/
def vCos (F : Ops) : Val → Val
  | some a => some (F.cos a)
  | Option.none => Option.none

/-- NaN-propagating `** 0.5` (applied in the source only to sums of
squares, which are nonnegative). -/
def vRoot (F : Ops) : Val → Val
  | some a => some (F.sqrt a)
  | Option.none => Option.none

/-- `v ** 2`. -/
def vSq (v : Val) : Val := vMul v v

/-- `(v_x ** 2 + v_y ** 2) ** 0.5` (transect.py line 87). -/
def vMag (F : Ops) (vx vy : Val) : Val := vRoot F (vAdd (vSq vx) (vSq vy))

/-- `np.nanmean([a, b])`: mean of the non-NaN entries, NaN when both are
NaN (transect.py line 77). -/
def nanmean2 : Val → Val → Val
  | some a, some b => some ((a + b) / 2)
  | some a, Option.none => some a
  | Option.none, some b => some b
  | Option.none, Option.none => Option.none

/-- The accessor's dataset `self._obj` for a transect with a time
dimension: per-point coordinates `x`, `y` and per-(time, point) velocity
components `v_x`, `v_y` (rows indexed by time, columns by point).
`others` stands for any further variables of the dataset. -/
structure TDataset where
  x : List Val
  y : List Val
  v_x : List (List Val)
  v_y : List (List Val)
  v_eff_nofill : Option (List (List Val)) := Option.none
  v_dir : Option (List Val) := Option.none
  others : List (String × List (List Val)) := []
  deriving DecidableEq

/-- `idx = np.isfinite(xs); xs = xs[idx]; ys = ys[idx]` (transect.py
lines 28–30): keep the pairs whose x coordinate is finite (the mask is
computed from `xs` only, so a kept `y` may still be NaN). -/
def finiteFilter (xs ys : List Val) : List (ℚ × Val) :=
  (xs.zip ys).filterMap (fun p => p.1.map (fun xv => (xv, p.2)))

/-- Float equality test used for the y coordinates in the neighbour
search: NaN compares unequal to everything. -/
def yeqB : Val → Val → Bool
  | some a, some b => a == b
  | _, _ => false

/-- `not ((x_nb == x) and (y_nb == y))` (transect.py lines 57 and 73):
the candidate neighbour `p` has coordinates distinct from `(x, y)`. -/
def distinctB (p : ℚ × Val) (x : ℚ) (y : Val) : Bool :=
  !(p.1 == x && yeqB p.2 y)

/-- Left neighbour scan for point `n` (transect.py lines 45–60): step
`m` down from `-1`, reading index `n + m`, until a distinct-coordinate
point is found; reaching index `< 0` yields `Option.none` (no neighbour).
The argument counts the indices `n - 1, …, 0` still to inspect. -/
def left_neighbor (pts : List (ℚ × Val)) (x : ℚ) (y : Val) : Nat → Option (ℚ × Val)
  | 0 => Option.none
  | j + 1 =>
    match pts.get? j with
    | some p => if distinctB p x y then some p else left_neighbor pts x y j
    | Option.none => Option.none

/-- Right neighbour scan from index `j` upward (transect.py lines
63–76): the loop stops with NaN as soon as `n + m >= len(xs) - 1`, so
index `len(xs) - 1` (the last point) is never inspected. The first
argument is fuel bounding the number of steps. -/
def right_neighbor_from (pts : List (ℚ × Val)) (x : ℚ) (y : Val) : Nat → Nat → Option (ℚ × Val)
  | 0, _ => Option.none
  | fuel + 1, j =>
    if pts.length ≤ j + 1 then Option.none
    else
      match pts.get? j with
      | some p => if distinctB p x y then some p else right_neighbor_from pts x y fuel (j + 1)
      | Option.none => Option.none

/-- Right neighbour of point `n`: scan starts at index `n + 1`
(transect.py line 67, `m += 1` before the boundary test). -/
def right_neighbor (pts : List (ℚ × Val)) (x : ℚ) (y : Val) (n : Nat) : Option (ℚ × Val) :=
  right_neighbor_from pts x y pts.length (n + 1)

/-- `angle_right` for point `n` (transect.py lines 69 and 76): NaN at
the boundary, else `arctan2(x_right - x, y_right - y)`. -/
def angle_right_of (F : Ops) (pts : List (ℚ × Val)) (x : ℚ) (y : Val) (n : Nat) : Val :=
  match right_neighbor pts x y n with
  | some p => vAtan2 F (some (p.1 - x)) (vSub p.2 y)
  | Option.none => Option.none

/-- Error message for the Python `UnboundLocalError` raised when
`angle_left` is read before any assignment (its NaN assignment at
transect.py line 53 is commented out). -/
def unboundMsg : String :=
  "UnboundLocalError: local variable angle_left referenced before assignment"

/-- One iteration of the local-mode loop body (transect.py lines 41–77)
for point `n` at `(x, y)`. `st` is the binding state of the Python
variable `angle_left` entering the iteration: `Option.none` when it was
never assigned, otherwise its current (possibly NaN) value. When the
left scan hits the bank boundary, `angle_left` keeps its stale state;
reading it unbound raises. Returns `angle[n]` and the new state. -/
def local_point_angle (F : Ops) (pts : List (ℚ × Val)) (n : Nat) (x : ℚ) (y : Val)
    (st : Option Val) : Except String (Val × Option Val) :=
  let st' : Option Val :=
    match left_neighbor pts x y n with
    | some p => some (vAtan2 F (some (x - p.1)) (vSub y p.2))
    | Option.none => st
  match st' with
  | some aL => Except.ok (nanmean2 aL (angle_right_of F pts x y n), some aL)
  | Option.none => Except.error unboundMsg

/-- The local-mode loop `for n, (x, y) in enumerate(zip(xs, ys))`
(transect.py line 41), threading the `angle_left` binding state. -/
def local_angles_go (F : Ops) (pts : List (ℚ × Val)) :
    Nat → Option Val → List (ℚ × Val) → Except String (List Val)
  | _, _, [] => Except.ok []
  | n, st, p :: rest =>
    match local_point_angle F pts n p.1 p.2 st with
    | Except.error e => Except.error e
    | Except.ok (a, st') =>
      match local_angles_go F pts (n + 1) st' rest with
      | Except.error e => Except.error e
      | Except.ok l => Except.ok (a :: l)

/-- Per-filtered-point angles in local mode. -/
def local_angles (F : Ops) (pts : List (ℚ × Val)) : Except String (List Val) :=
  local_angles_go F pts 0 Option.none pts

/-- `angle_da[:] = np.nan; angle_da[idx] = angle` (transect.py lines
38–39 and 79): scatter the computed angles back to the finite-x
positions of the original array, NaN elsewhere. -/
def scatter_finite : List Val → List Val → List Val
  | [], _ => []
  | Option.none :: xs, vs => Option.none :: scatter_finite xs vs
  | some _ :: xs, [] => Option.none :: scatter_finite xs []
  | some _ :: xs, v :: vs => v :: scatter_finite xs vs

/-- `angle_da` (transect.py lines 31–39): in global mode
(`angle_method == 0`) a single bank-to-bank angle broadcast over the
original point dimension (an empty filtered list makes `xs[0]` raise);
otherwise the per-point local angles scattered back. -/
def angle_da (F : Ops) (angle_method : Nat) (d : TDataset) : Except String (List Val) :=
  let pts := finiteFilter d.x d.y
  if angle_method = 0 then
    match pts.head?, pts.getLast? with
    | some pl, some pr =>
      Except.ok (List.replicate d.x.length (vAtan2 F (some (pr.1 - pl.1)) (vSub pr.2 pl.2)))
    | _, _ => Except.error "IndexError: index 0 is out of bounds"
  else
    match local_angles F pts with
    | Except.error e => Except.error e
    | Except.ok angs => Except.ok (scatter_finite d.x angs)

/-- One cell of `v_eff` (transect.py lines 85–92):
`cos(arctan2(v_x, v_y) - flow_dir) * (v_x ** 2 + v_y ** 2) ** 0.5`. -/
def v_eff_cell (F : Ops) (fd vx vy : Val) : Val :=
  vMul (vCos F (vSub (vAtan2 F vx vy) fd)) (vMag F vx vy)

/-- `Transect.vector_to_scalar` (transect.py lines 14–107): computes the
per-point flow direction `angle_da - 0.5 * np.pi`, the effective
velocity `v_eff_nofill` per (time, point) cell, and stores
`v_dir = np.ones(len(points)) * flow_dir`. -/
def vector_to_scalar (F : Ops) (angle_method : Nat) (d : TDataset) : Except String TDataset :=
  match angle_da F angle_method d with
  | Except.error e => Except.error e
  | Except.ok ada =>
    let flow_dir := ada.map (fun a => vSub a (some (F.pi / 2)))
    let rows := List.zipWith
      (fun vxr vyr => List.zipWith (fun fd c => v_eff_cell F fd c.1 c.2) flow_dir (vxr.zip vyr))
      d.v_x d.v_y
    Except.ok { d with
      v_eff_nofill := some rows,
      v_dir := some (flow_dir.map (fun fd => vMul (some 1) fd)) }

/-- The quantile-indexed dataset produced by `Transect.get_q`:
variables are (quantile × point) arrays, `river_flow` is per quantile,
`scoords` is the along-section distance coordinate. `others` stands for
any further variables. -/
structure QDataset where
  scoords : List ℚ
  xcoords : List Val
  ycoords : List Val
  zcoords : List Val
  h_a : Val
  v_eff_nofill : Option (List (List Val)) := Option.none
  v_eff : Option (List (List Val)) := Option.none
  q_nofill : Option (List (List Val)) := Option.none
  q : Option (List (List Val)) := Option.none
  river_flow : Option (List ℚ) := Option.none
  others : List (String × List (List Val)) := []
  deriving DecidableEq

/-- `df/dx` replaced with NaN fill: `q.fillna(0.0)` (transect.py line
140) replaces each NaN cell by `0.0`. -/
def fillna0 : Val → ℚ
  | some a => a
  | Option.none => 0

/-- Trapezoidal rule over (coordinate, value) pairs, as used by
`xarray.DataArray.integrate` (numpy `trapz`):
`Σ (s_{i+1} - s_i) * (q_i + q_{i+1}) / 2`. -/
def trapz : List (ℚ × ℚ) → ℚ
  | (s1, q1) :: (s2, q2) :: rest => (s2 - s1) * (q1 + q2) / 2 + trapz ((s2, q2) :: rest)
  | _ => 0

/-- One quantile row of `self._obj["q"].fillna(0.0).integrate(coord="scoords")`
(transect.py line 140). -/
def integrate_scoords (s : List ℚ) (row : List Val) : ℚ :=
  trapz (s.zip (row.map fillna0))

/-- The `ValueError` message of `get_river_flow` (transect.py line 138). -/
def errMsgQ : String :=
  "Dataset must contain variable \"q\", which is the depth-integrated velocity [m2 s-1], perpendicular to cross-section. Create this with ds.transect.get_q"

/-- `Transect.get_river_flow` (transect.py lines 127–148): raise a
`ValueError` when variable `q` is absent, otherwise integrate
`q.fillna(0.0)` over `scoords` and store the result as `river_flow`.
The first component is the accessor's dataset after the call, the second
the raised error message, if any. -/
def get_river_flow (d : QDataset) : QDataset × Option String :=
  match d.q with
  | Option.none => (d, some errMsgQ)
  | some qrows =>
    ({ d with river_flow := some (qrows.map (integrate_scoords d.scoords)) }, Option.none)

/-- External collaborators of `get_q` that are not part of this module:
xarray's `Dataset.quantile` aggregation, `helpers.velocity_fill`
(arguments x, y, z, v_eff_nofill, z_0, h_ref, h_a) and
`helpers.depth_integrate` (arguments z, v, z_0, h_ref, h_a, v_corr). -/
structure Helpers where
  quantile_agg : TDataset → List ℚ → QDataset
  velocity_fill : List Val → List Val → List Val → List (List Val) → ℚ → ℚ → Val → List (List Val)
  depth_integrate : List Val → List (List Val) → ℚ → ℚ → Val → ℚ → List (List Val)

/-- `Transect.get_q` (transect.py lines 151–173): build the quantile
aggregate `ds` of `self._obj`, then assign `v_eff`, `q_nofill` and `q`
on `ds` only, and return it. The first component is the accessor's
dataset after the call (`self._obj` is never written). -/
def get_q (H : Helpers) (z_0 h_ref : ℚ) (d : TDataset) (v_corr : ℚ)
    (quantiles : List ℚ) : TDataset × QDataset :=
  let ds := H.quantile_agg d quantiles
  let ds1 := { ds with
    v_eff := some (H.velocity_fill ds.xcoords ds.ycoords ds.zcoords
      (ds.v_eff_nofill.getD []) z_0 h_ref ds.h_a) }
  let ds2 := { ds1 with
    q_nofill := some (H.depth_integrate ds1.zcoords (ds1.v_eff_nofill.getD [])
      z_0 h_ref ds1.h_a v_corr) }
  let ds3 := { ds2 with
    q := some (H.depth_integrate ds2.zcoords (ds2.v_eff.getD [])
      z_0 h_ref ds2.h_a v_corr) }
  (d, ds3)

/-- Whether the needle list is an initial segment of the haystack. -/
def leadsWith : List Char → List Char → Bool
  | [], _ => true
  | _ :: _, [] => false
  | a :: as, b :: bs => a == b && leadsWith as bs

/-- Whether the needle occurs as a contiguous sublist of the haystack. -/
def hasSub (nd : List Char) : List Char → Bool
  | [] => nd.isEmpty
  | b :: bs => leadsWith nd (b :: bs) || hasSub nd bs

/-- Arbitrary rational-valued stand-ins for the transcendental
primitives, used only to instantiate universally quantified theorems at
concrete inputs. -/
def opsEx : Ops :=
  { atan2 := fun a b => a - 2 * b
    cos := fun a => 1 - a * a
    sqrt := fun a => a + 1
    pi := 22 / 7 }

/-- Concrete transect dataset with two finite points, used to evaluate
local mode (`angle_method ≠ 0`). -/
def dLoc : TDataset :=
  { x := [some 0, some 1], y := [some 0, some 1], v_x := [], v_y := [] }

/-- Concrete filtered point list for the right-scan counterexample:
two distinct points. -/
def ptsTwo : List (ℚ × Val) := [(0, some 0), (1, some 0)]

/-- Concrete transect dataset for global mode: three points, the middle
one with a non-finite x coordinate. -/
def dMid : TDataset :=
  { x := [some 0, Option.none, some 2], y := [some 0, some 0, some 3],
    v_x := [], v_y := [] }

/-- `dMid` after `vector_to_scalar opsEx 0`. -/
def dMid' : TDataset :=
  { dMid with
    v_eff_nofill := some [],
    v_dir := some (List.replicate 3 (some (1 * ((2 - 0 : ℚ) - 2 * (3 - 0) - 22 / 7 / 2)))) }

/-- Transect dataset whose x coordinates are all non-finite: the only
input on which local mode completes. -/
def dAllNaN : TDataset :=
  { x := [Option.none, Option.none], y := [Option.none, Option.none],
    v_x := [], v_y := [] }

/-- `dAllNaN` after `vector_to_scalar opsEx 1`. -/
def dAllNaN' : TDataset :=
  { dAllNaN with
    v_eff_nofill := some [],
    v_dir := some [Option.none, Option.none] }

/-- Concrete transect dataset with velocities, for the projection
formula: two points, one time step, one cell with a NaN component. -/
def dVel : TDataset :=
  { x := [some 0, some 3], y := [some 0, some 4],
    v_x := [[some 1, Option.none]], v_y := [[some 2, some 5]] }

/-- The global section angle term produced on `dVel` (before the
`np.ones` broadcast). -/
def aGlob : Val :=
  vSub (vAtan2 opsEx (some ((3 : ℚ) - 0)) (vSub (some 4) (some 0))) (some (opsEx.pi / 2))

/-- The flow-direction rational stored in `v_dir` on `dVel`. -/
def fdW : ℚ := 1 * (opsEx.atan2 ((3 : ℚ) - 0) ((4 : ℚ) - 0) - opsEx.pi / 2)

/-- The `v_dir` list produced on `dVel`. -/
def dirsVel : List Val := [vMul (some 1) aGlob, vMul (some 1) aGlob]

/-- The single `v_eff_nofill` row produced on `dVel`. -/
def rowVel : List Val :=
  [v_eff_cell opsEx aGlob (some 1) (some 2), v_eff_cell opsEx aGlob Option.none (some 5)]

/-- `dVel` after `vector_to_scalar opsEx 0`. -/
def dVel' : TDataset :=
  { dVel with v_eff_nofill := some [rowVel], v_dir := some dirsVel }

/-- Concrete quantile dataset whose `q` is uniformly zero. -/
def dQzero : QDataset :=
  { scoords := [0, 2, 5], xcoords := [], ycoords := [], zcoords := [],
    h_a := Option.none,
    q := some [[some 0, some 0, some 0], [some 0, some 0, some 0]] }

/-- Concrete quantile dataset without the variable `q`. -/
def dNoQ : QDataset :=
  { scoords := [0, 1], xcoords := [], ycoords := [], zcoords := [],
    h_a := Option.none, q := Option.none,
    others := [("foo", [[some 1]])] }

/-- Concrete quantile dataset with `q` present, including a NaN cell. -/
def dWithQ : QDataset :=
  { scoords := [0, 1, 3], xcoords := [some 7], ycoords := [], zcoords := [],
    h_a := some 1,
    q := some [[some 2, Option.none, some 4]],
    q_nofill := some [[some 2, Option.none, some 4]],
    others := [("bar", [[some 9]])] }

/-! ### Helper lemmas -/

/-- Multiplying by the float constant `1.0` (from `np.ones`) is the
identity, also on NaN. -/
theorem one_vMul (v : Val) : vMul (some 1) v = v := by
  cases v with
  | none => rfl
  | some a => simp [vMul]

/-- `scatter_finite` keeps the length of the original coordinate array. -/
theorem scatter_finite_length : ∀ (xs vs : List Val),
    (scatter_finite xs vs).length = xs.length := by
  intro xs
  induction xs with
  | nil => intro vs; rfl
  | cons h t ih =>
    intro vs
    cases h with
    | none => simp [scatter_finite, ih]
    | some a =>
      cases vs with
      | nil => simp [scatter_finite, ih]
      | cons v vs' => simp [scatter_finite, ih]

/-- A position with a non-finite x coordinate stays NaN after the
scatter. -/
theorem scatter_finite_get?_nan : ∀ (xs vs : List Val) (p : Nat),
    xs.get? p = some Option.none →
    (scatter_finite xs vs).get? p = some Option.none := by
  intro xs
  induction xs with
  | nil => intro vs p h; simp at h
  | cons hd t ih =>
    intro vs p h
    cases hd with
    | none =>
      cases p with
      | zero => simp [scatter_finite]
      | succ p' =>
        simp only [List.get?_cons_succ] at h
        simpa [scatter_finite] using ih vs p' h
    | some a =>
      cases p with
      | zero => simp at h
      | succ p' =>
        simp only [List.get?_cons_succ] at h
        cases vs with
        | nil => simpa [scatter_finite] using ih [] p' h
        | cons v vs' => simpa [scatter_finite] using ih vs' p' h

/-- The trapezoidal rule over pairs whose values are all zero is zero. -/
theorem trapz_eq_zero : ∀ (l : List (ℚ × ℚ)), (∀ p ∈ l, p.2 = 0) → trapz l = 0 := by
  intro l
  induction l with
  | nil => intro _; rfl
  | cons a t ih =>
    intro h
    cases t with
    | nil => rfl
    | cons b t' =>
      have ha : a.2 = 0 := h a (by simp)
      have hb : b.2 = 0 := h b (by simp)
      have ht : ∀ p ∈ b :: t', p.2 = 0 := fun p hp => h p (List.mem_cons_of_mem _ hp)
      obtain ⟨a1, a2⟩ := a
      obtain ⟨b1, b2⟩ := b
      simp only at ha hb
      rw [trapz, ih ht, ha, hb]
      ring

/-- Dropping to a position that holds `a` exposes `a` as the head. -/
theorem drop_of_get? : ∀ (l : List (ℚ × Val)) (j : Nat) (a : ℚ × Val),
    l.get? j = some a → l.drop j = a :: l.drop (j + 1) := by
  intro l
  induction l with
  | nil => intro j a h; simp at h
  | cons b t ih =>
    intro j a h
    cases j with
    | zero => simp at h; simp [h]
    | succ j' =>
      simp only [List.get?_cons_succ] at h
      simpa using ih j' a h

/-- Taking a prefix does not change lookups strictly inside it. -/
theorem take_get? : ∀ (l : List (ℚ × Val)) (n j : Nat), j < n →
    (l.take n).get? j = l.get? j := by
  intro l
  induction l with
  | nil => intro n j _; simp
  | cons b t ih =>
    intro n j hj
    cases n with
    | zero => omega
    | succ n' =>
      cases j with
      | zero => simp
      | succ j' => simpa using ih n' j' (by omega)

/-- The right-neighbour scan is the first distinct-coordinate point of
the index range `j, …, len - 2`: the boundary test `n + m >= len(xs) - 1`
(transect.py line 68) cuts the last point off before it is read. -/
theorem right_neighbor_from_spec (pts : List (ℚ × Val)) (x : ℚ) (y : Val) :
    ∀ (fuel j : Nat), pts.length ≤ j + fuel →
      right_neighbor_from pts x y fuel j
        = ((pts.take (pts.length - 1)).drop j).find? (fun p => distinctB p x y) := by
  intro fuel
  induction fuel with
  | zero =>
    intro j hj
    have hlen : (pts.take (pts.length - 1)).length ≤ j := by
      simp [List.length_take]; omega
    rw [List.drop_eq_nil_of_le hlen]
    rfl
  | succ fuel ih =>
    intro j hj
    by_cases hb : pts.length ≤ j + 1
    · have hlen : (pts.take (pts.length - 1)).length ≤ j := by
        simp [List.length_take]; omega
      rw [List.drop_eq_nil_of_le hlen]
      simp [right_neighbor_from, hb]
    · have hj1 : j < pts.length := by omega
      cases hget : pts.get? j with
      | none =>
        rw [List.get?_eq_none] at hget
        omega
      | some p =>
        have htk : (pts.take (pts.length - 1)).get? j = some p := by
          rw [take_get? pts (pts.length - 1) j (by omega)]; exact hget
        rw [right_neighbor_from, if_neg hb, hget, drop_of_get? _ j p htk]
        by_cases hd : distinctB p x y
        · rw [List.find?_cons_of_pos _ (by simpa using hd)]
          simp [hd]
        · rw [List.find?_cons_of_neg _ (by simpa using hd)]
          simpa [hd] using ih (j + 1) (by omega)

/-- Shape of a successfully computed `angle_da`: it has one entry per
original point, and in local mode the entries at non-finite x positions
are NaN. -/
theorem angle_da_shape (F : Ops) (am : Nat) (d : TDataset) (ada : List Val)
    (h : angle_da F am d = Except.ok ada) :
    ada.length = d.x.length ∧
    (am ≠ 0 → ∀ p, d.x.get? p = some Option.none → ada.get? p = some Option.none) := by
  by_cases ham : am = 0
  · subst ham
    cases hh : (finiteFilter d.x d.y).head? with
    | none => simp [angle_da, hh] at h
    | some pl =>
      cases hg : (finiteFilter d.x d.y).getLast? with
      | none => simp [angle_da, hh, hg] at h
      | some pr =>
        simp [angle_da, hh, hg] at h
        constructor
        · rw [← h]; simp
        · intro h0; exact absurd rfl h0
  · cases hla : local_angles F (finiteFilter d.x d.y) with
    | error e => simp [angle_da, ham, hla] at h
    | ok angs =>
      simp [angle_da, ham, hla] at h
      constructor
      · rw [← h]; exact scatter_finite_length _ _
      · intro _ p hp; rw [← h]; exact scatter_finite_get?_nan _ _ p hp

/-! ### Claims -/

/-- C1: `get_river_flow` computes, per quantile, `Q` as the trapezoidal
integral over the `scoords` coordinate of `q` with every NaN value
replaced by `0.0`; in particular a uniformly zero `q` yields `Q = 0` for
every quantile. -/
theorem c1_river_flow_trapezoid (d : QDataset) (qrows : List (List Val))
    (hq : d.q = some qrows) :
    (get_river_flow d).1.river_flow
      = some (qrows.map (fun row => trapz (d.scoords.zip (row.map fillna0)))) ∧
    ((∀ row ∈ qrows, ∀ c ∈ row, c = some (0:ℚ)) →
      ∀ Qv ∈ ((get_river_flow d).1.river_flow.getD []), Qv = 0) := by
  constructor
  · simp [get_river_flow, hq, integrate_scoords]
  · intro hz Qv hQv
    simp only [get_river_flow, hq, Option.getD_some] at hQv
    rw [List.mem_map] at hQv
    obtain ⟨row, hrow, hQ⟩ := hQv
    rw [← hQ, integrate_scoords]
    apply trapz_eq_zero
    intro pr hpr
    have h2 := (List.of_mem_zip hpr).2
    rw [List.mem_map] at h2
    obtain ⟨cv, hcv, hfc⟩ := h2
    rw [← hfc, hz row hrow cv hcv]
    rfl

/-- Witness for C1: on the uniformly zero dataset `dQzero` every
river-flow quantile value is `0`. -/
theorem c1_river_flow_trapezoid_witness :
    (get_river_flow dQzero).1.river_flow
      = some ([[some 0, some 0, some 0], [some 0, some 0, some 0]].map
          (fun row => trapz (dQzero.scoords.zip (row.map fillna0)))) ∧
    ∀ Qv ∈ ((get_river_flow dQzero).1.river_flow.getD []), Qv = 0 := by
  have h := c1_river_flow_trapezoid dQzero
    [[some 0, some 0, some 0], [some 0, some 0, some 0]] rfl
  exact ⟨h.1, h.2 (by decide)⟩

/-- C2: for every (point, time) cell where `v_x`, `v_y` and the stored
flow direction are all defined, the effective velocity equals
`cos(atan2(v_x, v_y) - flow_dir) * sqrt(v_x² + v_y²)`, with the atan2
arguments in the order (x-component, y-component). -/
theorem c2_vector_projection (F : Ops) (am : Nat) (d d' : TDataset) (t p : Nat)
    (vx vy fd : ℚ) (vxr vyr : List Val) (dirs : List Val)
    (rows : List (List Val)) (row : List Val)
    (hok : vector_to_scalar F am d = Except.ok d')
    (hxr : d.v_x.get? t = some vxr) (hx : vxr.get? p = some (some vx))
    (hyr : d.v_y.get? t = some vyr) (hy : vyr.get? p = some (some vy))
    (hdirs : d'.v_dir = some dirs) (hfd : dirs.get? p = some (some fd))
    (hrows : d'.v_eff_nofill = some rows) (hrow : rows.get? t = some row) :
    row.get? p = some (some (F.cos (F.atan2 vx vy - fd) * F.sqrt (vx * vx + vy * vy))) := by
  cases hada : angle_da F am d with
  | error e => simp [vector_to_scalar, hada] at hok
  | ok ada =>
    simp only [vector_to_scalar, hada] at hok
    injection hok with hok'
    subst hok'
    injection hdirs with hdirs'
    injection hrows with hrows'
    subst hdirs'
    subst hrows'
    rw [List.get?_zipWith', hxr, hyr] at hrow
    simp only [Option.map_some', Option.some_bind'] at hrow
    injection hrow with hrow'
    subst hrow'
    rw [List.get?_map] at hfd
    cases hfdl : (ada.map (fun a => vSub a (some (F.pi / 2)))).get? p with
    | none => rw [hfdl] at hfd; simp at hfd
    | some w =>
      rw [hfdl] at hfd
      simp only [Option.map_some'] at hfd
      have hw : w = some fd := by
        cases w with
        | none => simp [vMul] at hfd
        | some a =>
          rw [one_vMul] at hfd
          exact Option.some.inj hfd
      subst hw
      rw [List.get?_zipWith', hfdl]
      simp only [Option.map_some', Option.some_bind']
      rw [List.zip_eq_zipWith, List.get?_zipWith', hx, hy]
      simp only [Option.map_some', Option.some_bind']
      rfl

/-- Witness for C2: the projection formula evaluated on `dVel` at
point 0, time 0. -/
theorem c2_vector_projection_witness :
    rowVel.get? 0
      = some (some (opsEx.cos (opsEx.atan2 1 2 - fdW) * opsEx.sqrt (1 * 1 + 2 * 2))) :=
  c2_vector_projection opsEx 0 dVel dVel' 0 0 1 2 fdW
    [some 1, Option.none] [some 2, some 5] dirsVel [rowVel] rowVel
    rfl rfl rfl rfl rfl rfl rfl rfl rfl

/-- C3: in global mode (`angle_method = 0`), for a point sequence with
at least 2 finite points, a single section angle
`atan2(x_last - x_first, y_last - y_first)` is computed over the
finite-filtered first and last points, and every point receives the same
flow direction, that angle minus π/2, stored identically for all points
in `v_dir`. -/
theorem c3_global_flow_direction (F : Ops) (d : TDataset) (pl pr : ℚ × Val)
    (h2 : 2 ≤ (finiteFilter d.x d.y).length)
    (hl : (finiteFilter d.x d.y).head? = some pl)
    (hr : (finiteFilter d.x d.y).getLast? = some pr) :
    ∃ d', vector_to_scalar F 0 d = Except.ok d' ∧
      d'.v_dir = some (List.replicate d.x.length
        (vSub (vAtan2 F (some (pr.1 - pl.1)) (vSub pr.2 pl.2)) (some (F.pi / 2)))) := by
  have hada : angle_da F 0 d
      = Except.ok (List.replicate d.x.length
          (vAtan2 F (some (pr.1 - pl.1)) (vSub pr.2 pl.2))) := by
    simp [angle_da, hl, hr]
  simp only [vector_to_scalar, hada]
  exact ⟨_, rfl, by simp [List.map_replicate, one_vMul]⟩

/-- Witness for C3: the global flow direction on the three-point
dataset `dMid`. -/
theorem c3_global_flow_direction_witness :
    ∃ d', vector_to_scalar opsEx 0 dMid = Except.ok d' ∧
      d'.v_dir = some (List.replicate 3
        (vSub (vAtan2 opsEx (some ((2:ℚ) - 0)) (vSub (some 3) (some 0)))
          (some (opsEx.pi / 2)))) :=
  c3_global_flow_direction opsEx dMid (0, some 0) (2, some 3) (by decide) rfl rfl

/-- C4 (code bug): in local mode the `angle_left = np.nan` assignment at
the left-bank boundary is commented out (transect.py line 53), so the
very first point reads `angle_left` unbound and the whole method raises
`UnboundLocalError` instead of using only the right-neighbour angle;
evaluation of the embedding at a two-point transect. -/
theorem c4_local_mode_raises (F : Ops) :
    vector_to_scalar F 1 dLoc = Except.error unboundMsg := rfl

/-- C5 counterexample: point 0 of `ptsTwo` has a distinct-coordinate
point at the strictly greater index 1, yet the right-neighbour scan and
the right angle come back undefined, because the boundary test
`n + m >= len(xs) - 1` excludes the last point. -/
theorem c5_right_scan_counterexample :
    distinctB (1, some 0) 0 (some 0) = true ∧
    ptsTwo.get? 1 = some (1, some 0) ∧
    right_neighbor ptsTwo 0 (some 0) 0 = Option.none ∧
    angle_right_of opsEx ptsTwo 0 (some 0) 0 = Option.none :=
  ⟨rfl, rfl, rfl, rfl⟩

/-- C5 (amended): the right neighbour of point `n` is the first
distinct-coordinate point among indices `n+1, …, len-2`; the last point
(index `len-1`) is never inspected, so it cannot serve as a right
neighbour; the right angle is `atan2(x_right - x, y_right - y)` of that
neighbour when one exists and NaN otherwise. -/
theorem c5_right_scan_excludes_last (F : Ops) (pts : List (ℚ × Val)) (x : ℚ) (y : Val)
    (n : Nat) :
    right_neighbor pts x y n
      = ((pts.take (pts.length - 1)).drop (n + 1)).find? (fun p => distinctB p x y) ∧
    angle_right_of F pts x y n
      = (((pts.take (pts.length - 1)).drop (n + 1)).find? (fun p => distinctB p x y)).bind
          (fun p => vAtan2 F (some (p.1 - x)) (vSub p.2 y)) := by
  have h := right_neighbor_from_spec pts x y pts.length (n + 1) (by omega)
  refine ⟨h, ?_⟩
  rw [angle_right_of, right_neighbor] at *
  rw [h]
  cases ((pts.take (pts.length - 1)).drop (n + 1)).find? (fun p => distinctB p x y) with
  | none => rfl
  | some p => rfl

/-- C6 counterexample: in global mode the point with non-finite x
coordinate receives the same defined global flow direction as every
other point, not NaN. -/
theorem c6_v_dir_counterexample :
    dMid.x.get? 1 = some Option.none ∧
    vector_to_scalar opsEx 0 dMid = Except.ok dMid' ∧
    dMid'.v_dir.bind (fun l => l.get? 1)
      = some (some (1 * ((2 - 0 : ℚ) - 2 * (3 - 0) - 22 / 7 / 2))) ∧
    dMid'.v_dir.bind (fun l => l.get? 1) ≠ some Option.none := by
  refine ⟨rfl, rfl, rfl, ?_⟩
  intro h
  rw [show dMid'.v_dir.bind (fun l => l.get? 1)
      = some (some (1 * ((2 - 0 : ℚ) - 2 * (3 - 0) - 22 / 7 / 2))) from rfl] at h
  simp at h

/-- C6 (amended): whenever `vector_to_scalar` succeeds, the stored
`v_dir` is addressable by the original unfiltered point index (one entry
per original point); in local mode every point whose x coordinate is
non-finite has a NaN flow direction, but in global mode all points,
including non-finite ones, share the single global flow direction. -/
theorem c6_v_dir_original_indexing (F : Ops) (am : Nat) (d d' : TDataset)
    (hok : vector_to_scalar F am d = Except.ok d') :
    ∃ l, d'.v_dir = some l ∧ l.length = d.x.length ∧
      (am ≠ 0 → ∀ p, d.x.get? p = some Option.none → l.get? p = some Option.none) := by
  cases hada : angle_da F am d with
  | error e => simp [vector_to_scalar, hada] at hok
  | ok ada =>
    simp only [vector_to_scalar, hada] at hok
    obtain ⟨hlen, hnan⟩ := angle_da_shape F am d ada hada
    injection hok with hok'
    subst hok'
    refine ⟨(ada.map (fun a => vSub a (some (F.pi / 2)))).map (fun fd => vMul (some 1) fd),
      rfl, ?_, ?_⟩
    · simp [hlen]
    · intro h0 p hp
      have h1 := hnan h0 p hp
      rw [List.get?_map, List.get?_map, h1]
      rfl

/-- Witness for C6 (amended): local mode on the all-non-finite dataset
`dAllNaN` succeeds and indexes `v_dir` by the original points, all NaN. -/
theorem c6_v_dir_original_indexing_witness :
    ∃ l, dAllNaN'.v_dir = some l ∧ l.length = dAllNaN.x.length ∧
      ((1:Nat) ≠ 0 → ∀ p, dAllNaN.x.get? p = some Option.none →
        l.get? p = some Option.none) :=
  c6_v_dir_original_indexing opsEx 1 dAllNaN dAllNaN' rfl

/-- C7: for every (point, time) cell where `v_x` or `v_y` is NaN, the
effective velocity `v_eff_nofill` produced by `vector_to_scalar` is NaN
at that cell; it is never replaced by zero at this stage. -/
theorem c7_nan_propagates (F : Ops) (am : Nat) (d d' : TDataset) (t p : Nat)
    (vxr vyr : List Val) (rows : List (List Val)) (row : List Val) (c : Val)
    (hok : vector_to_scalar F am d = Except.ok d')
    (hrows : d'.v_eff_nofill = some rows) (hrow : rows.get? t = some row)
    (hcell : row.get? p = some c)
    (hxr : d.v_x.get? t = some vxr) (hyr : d.v_y.get? t = some vyr)
    (hnan : vxr.get? p = some Option.none ∨ vyr.get? p = some Option.none) :
    c = Option.none := by
  cases hada : angle_da F am d with
  | error e => simp [vector_to_scalar, hada] at hok
  | ok ada =>
    simp only [vector_to_scalar, hada] at hok
    injection hok with hok'
    subst hok'
    injection hrows with hrows'
    subst hrows'
    rw [List.get?_zipWith', hxr, hyr] at hrow
    simp only [Option.map_some', Option.some_bind'] at hrow
    injection hrow with hrow'
    subst hrow'
    rw [List.get?_zipWith'] at hcell
    cases hfdl : (ada.map (fun a => vSub a (some (F.pi / 2)))).get? p with
    | none => rw [hfdl] at hcell; simp at hcell
    | some fd =>
      rw [hfdl] at hcell
      simp only [Option.map_some', Option.some_bind'] at hcell
      rw [List.zip_eq_zipWith, List.get?_zipWith'] at hcell
      cases hnan with
      | inl ha =>
        rw [ha] at hcell
        cases hb : vyr.get? p with
        | none => rw [hb] at hcell; simp at hcell
        | some b =>
          rw [hb] at hcell
          simp only [Option.map_some', Option.some_bind'] at hcell
          injection hcell with hc
          cases b with
          | none => exact hc.symm
          | some bq => exact hc.symm
      | inr hb =>
        rw [hb] at hcell
        cases ha : vxr.get? p with
        | none => rw [ha] at hcell; simp at hcell
        | some a =>
          rw [ha] at hcell
          simp only [Option.map_some', Option.some_bind'] at hcell
          injection hcell with hc
          cases a with
          | none => exact hc.symm
          | some aq => exact hc.symm

/-- Witness for C7: the cell of `dVel` whose `v_x` is NaN yields a NaN
effective velocity. -/
theorem c7_nan_propagates_witness :
    v_eff_cell opsEx aGlob Option.none (some 5) = Option.none :=
  c7_nan_propagates opsEx 0 dVel dVel' 0 1
    [some 1, Option.none] [some 2, some 5] [rowVel] rowVel
    (v_eff_cell opsEx aGlob Option.none (some 5))
    rfl rfl rfl rfl rfl rfl (Or.inl rfl)

/-- C8: `get_river_flow` raises exactly when the variable `q` is absent;
the message names the missing variable `"q"` and the remedial call
`ds.transect.get_q`, and on the raising path the dataset is returned
unchanged. -/
theorem c8_missing_q_error (d : QDataset) :
    ((get_river_flow d).2 = some errMsgQ ↔ d.q = Option.none) ∧
    (d.q = Option.none → (get_river_flow d).1 = d ∧ (get_river_flow d).2 = some errMsgQ) ∧
    hasSub "\"q\"".toList errMsgQ.toList = true ∧
    hasSub "ds.transect.get_q".toList errMsgQ.toList = true := by
  refine ⟨?_, ?_, rfl, rfl⟩
  · cases hq : d.q with
    | none => simp [get_river_flow, hq]
    | some qrows => simp [get_river_flow, hq]
  · intro hq
    simp [get_river_flow, hq]

/-- Witness for C8: on `dNoQ` (no variable `q`) the error is raised and
the dataset is unchanged. -/
theorem c8_missing_q_error_witness :
    (get_river_flow dNoQ).1 = dNoQ ∧ (get_river_flow dNoQ).2 = some errMsgQ :=
  (c8_missing_q_error dNoQ).2.1 rfl

/-- C9: `get_q` returns a new quantile-indexed dataset built from the
quantile aggregate (only `v_eff`, `q_nofill` and `q` are assigned on
it), and leaves the accessor's original time-dimensioned dataset
untouched. -/
theorem c9_get_q_frame (H : Helpers) (z_0 h_ref : ℚ) (d : TDataset) (v_corr : ℚ)
    (quantiles : List ℚ) :
    (get_q H z_0 h_ref d v_corr quantiles).1 = d ∧
    (get_q H z_0 h_ref d v_corr quantiles).2.scoords = (H.quantile_agg d quantiles).scoords ∧
    (get_q H z_0 h_ref d v_corr quantiles).2.others = (H.quantile_agg d quantiles).others ∧
    (get_q H z_0 h_ref d v_corr quantiles).2.v_eff_nofill
      = (H.quantile_agg d quantiles).v_eff_nofill ∧
    (get_q H z_0 h_ref d v_corr quantiles).2.river_flow
      = (H.quantile_agg d quantiles).river_flow :=
  ⟨rfl, rfl, rfl, rfl, rfl⟩

/-- C10: a successful `get_river_flow` call (variable `q` present)
assigns exactly the one variable `river_flow` and leaves `q`, every
other variable and every coordinate unchanged. -/
theorem c10_get_river_flow_frame (d : QDataset) (qrows : List (List Val))
    (hq : d.q = some qrows) :
    (get_river_flow d).2 = Option.none ∧
    (get_river_flow d).1.river_flow = some (qrows.map (integrate_scoords d.scoords)) ∧
    (get_river_flow d).1.q = d.q ∧
    (get_river_flow d).1.q_nofill = d.q_nofill ∧
    (get_river_flow d).1.v_eff = d.v_eff ∧
    (get_river_flow d).1.v_eff_nofill = d.v_eff_nofill ∧
    (get_river_flow d).1.scoords = d.scoords ∧
    (get_river_flow d).1.xcoords = d.xcoords ∧
    (get_river_flow d).1.ycoords = d.ycoords ∧
    (get_river_flow d).1.zcoords = d.zcoords ∧
    (get_river_flow d).1.h_a = d.h_a ∧
    (get_river_flow d).1.others = d.others := by
  simp [get_river_flow, hq]

/-- Witness for C10: on `dWithQ` no error is raised, `q` and the other
variables are unchanged. -/
theorem c10_get_river_flow_frame_witness :
    (get_river_flow dWithQ).2 = Option.none ∧
    (get_river_flow dWithQ).1.q = dWithQ.q ∧
    (get_river_flow dWithQ).1.others = dWithQ.others :=
  ⟨(c10_get_river_flow_frame dWithQ [[some 2, Option.none, some 4]] rfl).1,
   (c10_get_river_flow_frame dWithQ [[some 2, Option.none, some 4]] rfl).2.2.1,
   (c10_get_river_flow_frame dWithQ [[some 2, Option.none, some 4]] rfl).2.2.2.2.2.2.2.2.2.2.2⟩
